import Mathlib

set_option maxRecDepth 40000

/-!
Verification of the qris-dynamicify TLV codec and mutation engine.

Shallow embedding of the core of the `qris-dynamicify` library:

* `computeCRC16`   — `src/utils/DynamicUtils.ts`, CRC-16 checksum engine;
* `setPrice`       — `src/utils/DynamicUtils.ts`, inserts the tag-54 amount field;
* `setTax`         — `src/utils/DynamicUtils.ts`, inserts the tag-55/56/57 fee fields;
* `parseEmv`       — `src/parser/emvParser.ts`, the TLV parser;
* `extractMetadata`— metadata extractor built on `parseEmv`.

Payload strings are modelled as `List Char`; the char codes fed to the CRC
are `Char.toNat` (identical to JavaScript `charCodeAt` on the BMP, and in
particular on ASCII payloads).  JavaScript-specific semantics are modelled
explicitly: `String.prototype.substring` (clamping, argument swapping,
NaN treated as 0), `parseInt` (sign handling, leading-digit parse, NaN on
no digits), numbers that may be NaN as `Option Int`, and the
`while (i < s.length)` parser loop as a fuel-indexed iteration where
`none` denotes fuel exhaustion (the JavaScript loop not having terminated
within `length + 1` iterations, which for this loop means it never
terminates, the cursor being non-decreasing whenever a step repeats).
-/

namespace Qris

/-- Decimal digit characters of a natural number, most significant first:
the model of JavaScript `String(n)` for a safe-integer `n` (below
`2 ^ 53`), where the double is exact and `String` renders the exact
decimal expansion.  Larger doubles render with shortest round-trip
rounding and, from `1e21` on, in scientific notation (`String(1e99)` is
`"1e+99"`), which is outside the scope of this model; theorems whose
conclusions depend on the rendered digit text restrict amounts
accordingly.  Fuel-indexed structural recursion (the fuel `n + 1` always
suffices) so that the kernel can evaluate it. -/
def natDigitsFuel : Nat → Nat → List Char
  | 0, _ => []
  | f + 1, n =>
    if n < 10 then [Nat.digitChar n]
    else natDigitsFuel f (n / 10) ++ [Nat.digitChar (n % 10)]

/-- JavaScript `String(n)` for a safe-integer natural number `n` (below
`2 ^ 53`); see `natDigitsFuel` for the scope of the model. -/
def natDigits (n : Nat) : List Char :=
  natDigitsFuel (n + 1) n

/-- JavaScript `String(n).padStart(2, "0")` applied to a natural number. -/
def pad2 (n : Nat) : List Char :=
  List.replicate (2 - (natDigits n).length) '0' ++ natDigits n

/-- One uppercase hexadecimal digit. -/
def hexChar (n : Nat) : Char :=
  if n < 10 then Nat.digitChar n else Char.ofNat (55 + n)

/-- Uppercase hexadecimal digits of a natural number, most significant
first: the model of JavaScript `n.toString(16).toUpperCase()`. -/
def hexDigitsFuel : Nat → Nat → List Char
  | 0, _ => []
  | f + 1, n =>
    if n < 16 then [hexChar n]
    else hexDigitsFuel f (n / 16) ++ [hexChar (n % 16)]

/-- JavaScript `n.toString(16).toUpperCase()` for a natural number. -/
def hexDigits (n : Nat) : List Char :=
  hexDigitsFuel (n + 1) n

/-- One shift-and-conditionally-XOR round of the inner `for` loop of
`computeCRC16`: `crc = (crc << 1) ^ 0x1021` when bit 15 is set, otherwise
`crc = crc << 1`, always followed by `crc &= 0xffff`. -/
def crcShift (crc : Nat) : Nat :=
  if crc &&& 0x8000 ≠ 0 then ((crc <<< 1) ^^^ 0x1021) &&& 0xFFFF
  else (crc <<< 1) &&& 0xFFFF

/-- One character of the outer `for` loop of `computeCRC16`:
`crc ^= str.charCodeAt(c) << 8` followed by the inner `for` loop of
exactly eight rounds, written out as an eightfold composition.  As in the
source, the register is not masked after the XOR; the inner rounds mask it. -/
def crcUpdate (crc code : Nat) : Nat :=
  crcShift (crcShift (crcShift (crcShift
    (crcShift (crcShift (crcShift (crcShift (crc ^^^ (code <<< 8)))))))))

/-- The 16-bit register value computed by `computeCRC16` over a list of
char codes: initial register `0xFFFF`, one `crcUpdate` per character. -/
def computeCRC16Val (codes : List Nat) : Nat :=
  codes.foldl crcUpdate 0xFFFF

/-- The final rendering step of `computeCRC16`: prepend a `"0"` only when
the hex rendering has exactly 3 characters. -/
def crcPad (hex : List Char) : List Char :=
  if hex.length = 3 then '0' :: hex else hex

/-- `computeCRC16` (DynamicUtils.ts): the register hex-rendered uppercase,
3-character renderings padded to 4. -/
def computeCRC16 (codes : List Nat) : List Char :=
  crcPad (hexDigits (computeCRC16Val codes))

/-- `computeCRC16` applied to a payload string (char codes via
`Char.toNat`, i.e. `charCodeAt`). -/
def crcOf (s : List Char) : List Char :=
  computeCRC16 (s.map Char.toNat)

/-! ## JavaScript string and number primitives -/

/-- Convert a JavaScript index (where `none` models NaN) to an actual
index into a string of length `len`: NaN becomes 0, negatives clamp to 0,
values beyond the length clamp to the length. -/
def jsIdx (len : Nat) : Option Int → Nat
  | none => 0
  | some i => min i.toNat len

/-- JavaScript `s.substring(a, b)`: clamp both indices, swap when
`start > end`, slice. -/
def jsSubstring (s : List Char) (a b : Option Int) : List Char :=
  let x := jsIdx s.length a
  let y := jsIdx s.length b
  (s.take (max x y)).drop (min x y)

/-- JavaScript `+` on numbers that may be NaN. -/
def jsAdd : Option Int → Option Int → Option Int
  | some a, some b => some (a + b)
  | _, _ => none

/-- JavaScript `i < len` where `i` may be NaN (any comparison with NaN is
false). -/
def jsLt (i : Option Int) (len : Nat) : Bool :=
  match i with
  | none => false
  | some i => i < (len : Int)

/-- Decimal value of a leading digit run; `none` when there is none. -/
def digitsVal (s : List Char) : Option Nat :=
  match s.takeWhile Char.isDigit with
  | [] => none
  | ds => some (ds.foldl (fun n c => 10 * n + (c.toNat - 48)) 0)

/-- JavaScript `parseInt(s, 10)`: skip leading whitespace, optional sign,
parse the leading digit run; NaN (`none`) when no digits follow. -/
def parseInt10 (s : List Char) : Option Int :=
  match s.dropWhile Char.isWhitespace with
  | '-' :: rest => (digitsVal rest).map (fun n => -(n : Int))
  | '+' :: rest => (digitsVal rest).map (fun n => (n : Int))
  | rest => (digitsVal rest).map (fun n => (n : Int))

/-! ## Literal-substring operations used by the mutators -/

/-- `true` iff `pat` occurs as a contiguous substring of `s`. -/
def containsSub (pat : List Char) : List Char → Bool
  | [] => pat.isEmpty
  | s@(_ :: rest) => pat.isPrefixOf s || containsSub pat rest

/-- Index of the first occurrence of `pat` in `s` (leftmost scan, as the
JavaScript string-searching operations do). -/
def firstOcc (pat : List Char) : List Char → Option Nat
  | [] => if pat.isEmpty then some 0 else none
  | s@(_ :: rest) =>
    if pat.isPrefixOf s then some 0
    else (firstOcc pat rest).map (· + 1)

/-- JavaScript `s.replace(pat, repl)` with a string pattern and a
replacement string free of dollar signs: replace the first occurrence
only, return `s` unchanged when there is none.  (JavaScript expands
substitution patterns introduced by a dollar sign in the replacement —
dollar-ampersand inserts the match, and so on — which this model does
not implement; the replacements written in the code itself never contain
a dollar sign, and the theorem that quantifies over caller-supplied fee
text hypothesizes a dollar-free fee tag.) -/
def replaceFirst (pat repl : List Char) : List Char → List Char
  | [] => if pat.isEmpty then repl else []
  | s@(c :: rest) =>
    if pat.isPrefixOf s then repl ++ s.drop pat.length
    else c :: replaceFirst pat repl rest

/-- JavaScript `s.split(pat).length === 2` together with the two parts:
`some (a, b)` exactly when `pat` occurs exactly once in the leftmost
non-overlapping scan, in which case `s = a ++ pat ++ b`. -/
def splitParts2 (pat s : List Char) : Option (List Char × List Char) :=
  match firstOcc pat s with
  | none => none
  | some i =>
    let rest := s.drop (i + pat.length)
    if containsSub pat rest then none else some (s.take i, rest)

/-- Leftmost match of the regular expression `/54\d{2}\d+/`: scan left to
right; at a position starting with `"54"` followed by at least three
digits, the match is `"54"` plus the maximal digit run. -/
def match54 : List Char → Option (List Char)
  | c1 :: c2 :: rest =>
    if c1 = '5' ∧ c2 = '4' ∧ 3 ≤ (rest.takeWhile Char.isDigit).length
    then some (c1 :: c2 :: rest.takeWhile Char.isDigit)
    else match54 (c2 :: rest)
  | _ => none

/-- `s.slice(0, -4)`: everything but the last four characters. -/
def dropCrc (s : List Char) : List Char :=
  s.take (s.length - 4)

/-- The 6-character run `"010211"` encoding tag `01` = `"11"`. -/
def tagStatic : List Char := ['0', '1', '0', '2', '1', '1']

/-- The 6-character run `"010212"` encoding tag `01` = `"12"`. -/
def tagDynamic : List Char := ['0', '1', '0', '2', '1', '2']

/-- The country-code anchor `"5802ID"`. -/
def anchor : List Char := ['5', '8', '0', '2', 'I', 'D']

/-! ## The TLV parser (`parseEmv`) -/

/-- Association list with JavaScript object-assignment semantics: an
existing key is overwritten in place, a new key is appended. -/
def recSet : List (List Char × List Char) → List Char → List Char →
    List (List Char × List Char)
  | [], k, v => [(k, v)]
  | (k', v') :: rest, k, v =>
    if k' = k then (k, v) :: rest else (k', v') :: recSet rest k v

/-- First value stored under key `k`. -/
def recGet (m : List (List Char × List Char)) (k : List Char) :
    Option (List Char) :=
  (m.find? (fun e => e.1 = k)).map (·.2)

/-- One iteration of the `while` loop of `parseEmv` at cursor `i`:
read the tag, `parseInt` the length, slice the value, store it, advance
the cursor by `4 + len`. -/
def parseStep (s : List Char) (i : Option Int)
    (acc : List (List Char × List Char)) :
    Option Int × List (List Char × List Char) :=
  let tag := jsSubstring s i (jsAdd i (some 2))
  let len := parseInt10 (jsSubstring s (jsAdd i (some 2)) (jsAdd i (some 4)))
  let value := jsSubstring s (jsAdd i (some 4)) (jsAdd (jsAdd i (some 4)) len)
  (jsAdd i (jsAdd (some 4) len), recSet acc tag value)

/-- The `while (i < qris.length)` loop of `parseEmv`, fuel-indexed.
The guard is tested before fuel is consumed, so `none` is returned exactly
when the loop is still running after `fuel` iterations. -/
def parseLoop (s : List Char) :
    Nat → Option Int → List (List Char × List Char) →
    Option (List (List Char × List Char))
  | fuel, i, acc =>
    if jsLt i s.length then
      match fuel with
      | 0 => none
      | f + 1 =>
        let (i', acc') := parseStep s i acc
        parseLoop s f i' acc'
    else some acc

/-- `parseEmv` (emvParser.ts).  A cursor that never repeats a position
visits at most `s.length + 1` loop iterations, so `none` is returned
exactly on the inputs where the JavaScript loop runs forever. -/
def parseEmv (s : List Char) : Option (List (List Char × List Char)) :=
  parseLoop s (s.length + 1) (some 0) []

/-! ## The dynamic-field mutators -/

/-- Error kinds of the mutators, in the order the source throws them. -/
inductive QErr where
  | invalidTax
  | invalidFormat
  | missingAmount
  deriving DecidableEq

/-- Result of a mutator: a new payload string or a thrown error. -/
inductive QRes where
  | ok (payload : List Char)
  | err (e : QErr)
  deriving DecidableEq

/-- The tag-54 field built by `setPrice`: `"54"`, the 2-padded length of
the digit string of `price`, then the digit string itself. -/
def priceTag (price : Nat) : List Char :=
  ['5', '4'] ++ pad2 (natDigits price).length ++ natDigits price

/-- `setPrice` (DynamicUtils.ts).  The `price < 0` guard of the source is
unrepresentable for a natural-number price and is therefore omitted. -/
def setPrice (staticQris : List Char) (price : Nat) : QRes :=
  match splitParts2 anchor (replaceFirst tagStatic tagDynamic (dropCrc staticQris)) with
  | none => .err .invalidFormat
  | some (a, b) =>
    .ok ((a ++ priceTag price ++ anchor ++ b) ++
      crcOf (a ++ priceTag price ++ anchor ++ b))

/-- The fee argument of `setTax`: a number (nominal, modelled as a
natural) or a string. -/
inductive TaxArg where
  | num (n : Nat)
  | str (s : List Char)

/-- The fee tag built at the top of `setTax`: `"55020256"`/`"55020357"`
followed by the length-prefixed digit string; `none` models the
invalid-format throw. -/
def mkTaxTag : TaxArg → Option (List Char)
  | .num n =>
    some (['5', '5', '0', '2', '0', '2', '5', '6'] ++
      pad2 (natDigits n).length ++ natDigits n)
  | .str s =>
    if s.getLast? = some '%' then
      let percent := replaceFirst ['%'] [] s
      some (['5', '5', '0', '2', '0', '3', '5', '7'] ++
        pad2 percent.length ++ percent)
    else none

/-- The fee arguments on which the embedding is exact: a nominal fee
must be a safe integer (below `2 ^ 53`), since JavaScript renders larger
doubles with rounding and, from `1e21` on, in scientific notation, which
`natDigits` does not model.  String fees are unaffected. -/
def taxSafe : TaxArg → Bool
  | .num n => decide (n < 2 ^ 53)
  | .str _ => true

/-- `setTax` (DynamicUtils.ts). -/
def setTax (staticQris : List Char) (tax : TaxArg) : QRes :=
  match mkTaxTag tax with
  | none => .err .invalidTax
  | some tag =>
    match splitParts2 anchor (replaceFirst tagStatic tagDynamic (dropCrc staticQris)) with
    | none => .err .invalidFormat
    | some (a, b) =>
      match match54 a with
      | none => .err .missingAmount
      | some m =>
        .ok ((replaceFirst m (m ++ tag) a ++ anchor ++ b) ++
          crcOf (replaceFirst m (m ++ tag) a ++ anchor ++ b))

/-! ## The metadata extractor -/

/-- JavaScript `v || d` on a possibly-absent string: `undefined` and the
empty string both fall back to the default. -/
def jsOr (v : Option (List Char)) (d : List Char) : List Char :=
  match v with
  | none => d
  | some v => if v = [] then d else v

/-- JavaScript `v || null` on a possibly-absent string. -/
def jsOrNull (v : Option (List Char)) : Option (List Char) :=
  match v with
  | none => none
  | some v => if v = [] then none else some v

/-- `"ID.CO.QRIS.WWW"`, the generic domestic-scheme identifier. -/
def qrisWWW : List Char :=
  ['I', 'D', '.', 'C', 'O', '.', 'Q', 'R', 'I', 'S', '.', 'W', 'W', 'W']

/-- The candidate merchant-account tags, in priority order. -/
def companyTags : List (List Char) := [['2', '6'], ['2', '7'], ['5', '1']]

/-- The company/merchant-PAN discovery loop of `extractMetadata`: for the
first candidate tag with a truthy value whose nested sub-tag `00` is
truthy and differs (case-insensitively) from the domestic-scheme
identifier, return the identifier and the nested sub-tag `01`; `none`
propagates a nested parse that does not terminate. -/
def findCompany (emv : List (List Char × List Char)) :
    List (List Char) → Option (List Char × List Char)
  | [] => some ([], [])
  | t :: ts =>
    match recGet emv t with
    | none => findCompany emv ts
    | some v =>
      if v = [] then findCompany emv ts
      else
        match parseEmv v with
        | none => none
        | some nested =>
          let gui := jsOr (recGet nested ['0', '0']) []
          let acc := jsOr (recGet nested ['0', '1']) []
          if gui ≠ [] ∧ gui.map Char.toUpper ≠ qrisWWW then some (gui, acc)
          else findCompany emv ts

/-- The metadata record returned by `extractMetadata`. -/
structure QrisMetadata where
  merchant : List Char
  company : List Char
  region : List Char
  country : List Char
  postal_code : List Char
  merchant_pan : List Char
  price : Option (List Char)
  tax : Option (List Char)
  deriving DecidableEq

/-- `extractMetadata` (metadata.ts). -/
def extractMetadata (qris : List Char) : Option QrisMetadata :=
  match parseEmv qris with
  | none => none
  | some emv =>
    match findCompany emv companyTags with
    | none => none
    | some (company, merchant_pan) =>
      some
        { merchant := jsOr (recGet emv ['5', '9']) []
          company := company
          region := jsOr (recGet emv ['6', '0']) []
          country := jsOr (recGet emv ['5', '8']) ['I', 'D']
          postal_code := jsOr (recGet emv ['6', '1']) []
          merchant_pan := merchant_pan
          price := jsOrNull (recGet emv ['5', '4'])
          tax := jsOrNull (recGet emv ['5', '5'])
        }

/-! ## Spec-side CRC definition (for the refinement claim C1)

Modelled from the spec, §4.1: CRC-16/CCITT-FALSE — initial register
`0xFFFF`, polynomial `0x1021`, no final XOR, no reflection; each input
byte is XORed, shifted into the high byte, into the 16-bit register, then
eight shift-and-conditionally-XOR rounds follow, masking to 16 bits. -/

/-- Modelled from the spec: one byte step of CRC-16/CCITT-FALSE, the
register kept to 16 bits throughout. -/
def crcSpecUpdate (r byte : Nat) : Nat :=
  (List.range 8).foldl (fun c _ => crcShift c) ((r ^^^ (byte <<< 8)) % 65536)

/-- Modelled from the spec: the CRC-16/CCITT-FALSE register over a byte
list, initial register `0xFFFF`. -/
def crcSpecVal (bytes : List Nat) : Nat :=
  bytes.foldl crcSpecUpdate 0xFFFF

/-! ## Helper lemmas for the CRC refinement -/

theorem crcShift_lt (c : Nat) : crcShift c < 65536 := by
  unfold crcShift
  split
  · exact Nat.lt_succ_of_le (Nat.and_le_right)
  · exact Nat.lt_succ_of_le (Nat.and_le_right)

theorem crcUpdate_lt (c b : Nat) : crcUpdate c b < 65536 :=
  crcShift_lt _

theorem crcSpecUpdate_eq_shift8 (x b : Nat) :
    crcSpecUpdate x b =
      crcShift (crcShift (crcShift (crcShift
        (crcShift (crcShift (crcShift (crcShift ((x ^^^ (b <<< 8)) % 65536)))))))) := by
  unfold crcSpecUpdate
  rw [show List.range 8 = [0, 1, 2, 3, 4, 5, 6, 7] from rfl]
  simp [List.foldl]

theorem crcUpdate_eq_spec (c b : Nat) (hc : c < 65536) (hb : b < 256) :
    crcUpdate c b = crcSpecUpdate c b := by
  unfold crcUpdate
  rw [crcSpecUpdate_eq_shift8]
  have hs : b <<< 8 < 65536 := by
    rw [Nat.shiftLeft_eq]
    omega
  have h : c ^^^ (b <<< 8) < 65536 := by
    have : c ^^^ (b <<< 8) < 2 ^ 16 :=
      Nat.xor_lt_two_pow (by norm_num [hc]) (by norm_num [hs])
    simpa using this
  rw [Nat.mod_eq_of_lt h]

theorem crcFold_eq_spec (codes : List Nat) :
    ∀ c : Nat, c < 65536 → (∀ x ∈ codes, x < 256) →
      codes.foldl crcUpdate c = codes.foldl crcSpecUpdate c := by
  induction codes with
  | nil => intro c _ _; rfl
  | cons b rest ih =>
    intro c hc hb
    rw [List.foldl_cons, List.foldl_cons,
      crcUpdate_eq_spec c b hc (hb b (List.mem_cons_self b rest))]
    rw [← crcUpdate_eq_spec c b hc (hb b (List.mem_cons_self b rest))]
    exact ih (crcUpdate c b) (crcUpdate_lt c b)
      (fun x hx => hb x (List.mem_cons_of_mem b hx))

/-! ## Lemmas about the literal-substring operations -/

/-- Bridge between the boolean prefix test and the prefix relation. -/
theorem isPrefixOf_true_iff {l1 l2 : List Char} :
    l1.isPrefixOf l2 = true ↔ l1 <+: l2 := by
  exact List.isPrefixOf_iff_prefix

theorem contains_cons (pat : List Char) (c : Char) (rest : List Char) :
    containsSub pat (c :: rest) =
      (pat.isPrefixOf (c :: rest) || containsSub pat rest) := rfl

theorem contains_false_head {pat : List Char} {c : Char} {rest : List Char}
    (h : containsSub pat (c :: rest) = false) :
    pat.isPrefixOf (c :: rest) = false ∧ containsSub pat rest = false := by
  rw [contains_cons, Bool.or_eq_false_iff] at h
  exact h

theorem contains_of_isPrefixOf {pat s : List Char}
    (h : pat.isPrefixOf s = true) : containsSub pat s = true := by
  cases s with
  | nil =>
    cases pat with
    | nil => rfl
    | cons c t => simp [List.isPrefixOf] at h
  | cons c rest => simp [contains_cons, h]

theorem contains_of_pre {pat s : List Char} (h : pat <+: s) :
    containsSub pat s = true :=
  contains_of_isPrefixOf (isPrefixOf_true_iff.mpr h)

theorem contains_mem {pat s : List Char} (h : containsSub pat s = true) :
    ∀ c ∈ pat, c ∈ s := by
  induction s with
  | nil =>
    intro c hc
    cases pat with
    | nil => cases hc
    | cons p t => simp [containsSub, List.isEmpty] at h
  | cons a rest ih =>
    intro c hc
    rw [contains_cons, Bool.or_eq_true] at h
    rcases h with h | h
    · exact (isPrefixOf_true_iff.mp h).sublist.subset hc
    · exact List.mem_cons_of_mem a (ih h c hc)

/-- `pat` can start inside `u` and overlap a following occurrence of `pat`
only when a nonempty proper suffix of `u` is a prefix of `pat` whose
complement is a self-overlap of `pat`.  `NoOverlapIn pat u` rules this
out. -/
def NoOverlapIn (pat u : List Char) : Prop :=
  ∀ k, 0 < k → k < pat.length →
    ¬(pat.take k <:+ u ∧ pat.drop k = pat.take (pat.length - k))

theorem noOverlapIn_tail {pat : List Char} {c : Char} {u : List Char}
    (h : NoOverlapIn pat (c :: u)) : NoOverlapIn pat u :=
  fun k hk1 hk2 hko =>
    h k hk1 hk2 ⟨hko.1.trans (List.suffix_cons c u), hko.2⟩

theorem anchor_no_self_overlap :
    ∀ k, k < 6 → 0 < k → anchor.drop k ≠ anchor.take (6 - k) := by decide

theorem noOverlapIn_anchor (u : List Char) : NoOverlapIn anchor u :=
  fun k hk1 hk2 hko =>
    anchor_no_self_overlap k (by simpa [anchor] using hk2) hk1 hko.2

theorem prefix_junction {pat x rest : List Char} (hlt : x.length < pat.length)
    (h : pat <+: x ++ rest) :
    pat.take x.length = x ∧ pat.drop x.length <+: rest := by
  have hx : pat = x ++ List.take (pat.length - x.length) rest := by
    have := List.prefix_iff_eq_take.mp h
    rwa [List.take_append_eq_append_take,
      List.take_of_length_le (le_of_lt hlt)] at this
  constructor
  · rw [hx, List.take_left]
  · rw [hx, List.drop_left]
    exact List.take_prefix _ _

theorem prefix_false_of_junction {pat x rest : List Char} (hne : pat ≠ [])
    (hx : containsSub pat x = false) (hov : NoOverlapIn pat x)
    (hxne : x ≠ [])
    (h : pat <+: (x ++ (pat ++ rest))) : False := by
  rcases le_or_lt pat.length x.length with hle | hlt
  · have : pat <+: x :=
      List.prefix_of_prefix_length_le h (List.prefix_append x (pat ++ rest)) hle
    rw [contains_of_pre this] at hx
    cases hx
  · obtain ⟨h1, h2⟩ := prefix_junction hlt h
    have hdrop : pat.drop x.length = pat.take (pat.length - x.length) := by
      have hpre : pat.drop x.length <+: pat :=
        List.prefix_of_prefix_length_le h2 (List.prefix_append pat rest)
          (by simp [List.length_drop])
      have := List.prefix_iff_eq_take.mp hpre
      rwa [List.length_drop] at this
    have hxlen : 0 < x.length := List.length_pos.mpr hxne
    refine hov x.length hxlen hlt ⟨?_, hdrop⟩
    rw [h1]

theorem firstOcc_junction (pat x y : List Char) (hne : pat ≠ [])
    (hx : containsSub pat x = false) (hov : NoOverlapIn pat x) :
    firstOcc pat (x ++ (pat ++ y)) = some x.length := by
  induction x with
  | nil =>
    obtain ⟨p, pt, rfl⟩ : ∃ p pt, pat = p :: pt := by
      cases pat with
      | nil => exact absurd rfl hne
      | cons p pt => exact ⟨p, pt, rfl⟩
    have hpre : (p :: pt).isPrefixOf ((p :: pt) ++ y) = true :=
      isPrefixOf_true_iff.mpr (List.prefix_append _ _)
    simp only [List.nil_append, List.cons_append, firstOcc]
    rw [List.cons_append] at hpre
    simp [hpre]
  | cons c x' ih =>
    have hhead := contains_false_head hx
    have hpre : pat.isPrefixOf ((c :: x') ++ (pat ++ y)) = false := by
      by_contra hc
      have : pat.isPrefixOf ((c :: x') ++ (pat ++ y)) = true := by
        revert hc
        cases pat.isPrefixOf ((c :: x') ++ (pat ++ y)) <;> simp
      exact prefix_false_of_junction hne hx hov (by simp)
        (isPrefixOf_true_iff.mp this)
    rw [List.cons_append] at hpre
    simp only [List.cons_append, firstOcc, List.append_eq, hpre,
      Bool.false_eq_true, if_false]
    rw [ih hhead.2 (noOverlapIn_tail hov)]
    simp

theorem splitParts2_junction (pat x y : List Char) (hne : pat ≠ [])
    (hx : containsSub pat x = false) (hov : NoOverlapIn pat x)
    (hy : containsSub pat y = false) :
    splitParts2 pat ((x ++ pat) ++ y) = some (x, y) := by
  unfold splitParts2
  have hj : firstOcc pat ((x ++ pat) ++ y) = some x.length := by
    rw [List.append_assoc]
    exact firstOcc_junction pat x y hne hx hov
  rw [hj]
  have hdrop : ((x ++ pat) ++ y).drop (x.length + pat.length) = y :=
    List.drop_left' (by simp)
  have htake : ((x ++ pat) ++ y).take x.length = x := by
    rw [List.append_assoc]
    exact List.take_left' rfl
  simp only [hdrop, hy, htake, Bool.false_eq_true, if_false]

theorem replaceFirst_id (pat r : List Char) :
    ∀ s : List Char, containsSub pat s = false → replaceFirst pat r s = s := by
  intro s
  induction s with
  | nil =>
    intro h
    unfold replaceFirst
    cases hp : pat.isEmpty with
    | false => rfl
    | true => simp [containsSub, hp] at h
  | cons c rest ih =>
    intro h
    obtain ⟨h1, h2⟩ := contains_false_head h
    unfold replaceFirst
    rw [h1]
    simp [ih h2]

/-! ## Digit-string facts -/

theorem digitChar_isDigit : ∀ d : Nat, d < 10 → (Nat.digitChar d).isDigit = true := by
  decide

theorem natDigitsFuel_digits :
    ∀ (f n : Nat) (c : Char), c ∈ natDigitsFuel f n → c.isDigit = true := by
  intro f
  induction f with
  | zero => intro n c hc; cases hc
  | succ f ih =>
    intro n c hc
    unfold natDigitsFuel at hc
    split at hc
    · rcases List.mem_singleton.mp hc with rfl
      exact digitChar_isDigit n (by omega)
    · rcases List.mem_append.mp hc with hc | hc
      · exact ih _ c hc
      · rcases List.mem_singleton.mp hc with rfl
        exact digitChar_isDigit _ (Nat.mod_lt _ (by omega))

theorem natDigits_digits (n : Nat) : ∀ c ∈ natDigits n, c.isDigit = true :=
  fun c hc => natDigitsFuel_digits (n + 1) n c hc

theorem natDigitsFuel_ne_nil :
    ∀ f n : Nat, 0 < f → natDigitsFuel f n ≠ [] := by
  intro f n hf
  cases f with
  | zero => omega
  | succ f =>
    unfold natDigitsFuel
    split
    · simp
    · simp

theorem natDigits_ne_nil (n : Nat) : natDigits n ≠ [] :=
  natDigitsFuel_ne_nil (n + 1) n (by omega)

theorem pad2_digits (m : Nat) : ∀ c ∈ pad2 m, c.isDigit = true := by
  intro c hc
  rcases List.mem_append.mp hc with hc | hc
  · rcases List.eq_of_mem_replicate hc with rfl
    decide
  · exact natDigits_digits m c hc

theorem priceTag_shape (price : Nat) :
    priceTag price =
      '5' :: '4' :: (pad2 (natDigits price).length ++ natDigits price) := rfl

theorem priceTag_pd_digits (price : Nat) :
    ∀ c ∈ pad2 (natDigits price).length ++ natDigits price, c.isDigit = true := by
  intro c hc
  rcases List.mem_append.mp hc with hc | hc
  · exact pad2_digits _ c hc
  · exact natDigits_digits price c hc

theorem pad2_length_ge (m : Nat) : 2 ≤ (pad2 m).length := by
  unfold pad2
  rw [List.length_append, List.length_replicate]
  omega

theorem priceTag_pd_length (price : Nat) :
    3 ≤ (pad2 (natDigits price).length ++ natDigits price).length := by
  rw [List.length_append]
  have h1 := pad2_length_ge (natDigits price).length
  have h2 := List.length_pos.mpr (natDigits_ne_nil price)
  omega

theorem priceTag_digits (price : Nat) : ∀ c ∈ priceTag price, c.isDigit = true := by
  intro c hc
  rw [priceTag_shape] at hc
  rcases hc with _ | ⟨_, hc⟩
  · decide
  · rcases hc with _ | ⟨_, hc⟩
    · decide
    · exact priceTag_pd_digits price c hc

/-! ## Crossing lemmas: containment in a concatenation -/

theorem prefix_head {l : List Char} {c : Char} {t : List Char}
    (h : l <+: c :: t) : l = [] ∨ l.head? = some c := by
  obtain ⟨w, hw⟩ := h
  cases l with
  | nil => exact Or.inl rfl
  | cons d l' =>
    rw [List.cons_append] at hw
    exact Or.inr (by rw [List.head?_cons, (List.cons.injEq _ _ _ _).mp hw |>.1])

theorem containsSub_append_false (pat : List Char) :
    ∀ u v : List Char, containsSub pat u = false → containsSub pat v = false →
      (∀ k, 0 < k → k < pat.length → ¬(pat.take k <:+ u ∧ pat.drop k <+: v)) →
      containsSub pat (u ++ v) = false := by
  intro u
  induction u with
  | nil => intro v _ hv _; simpa using hv
  | cons c u' ih =>
    intro v hu hv hcross
    obtain ⟨h1, h2⟩ := contains_false_head hu
    rw [List.cons_append, contains_cons, Bool.or_eq_false_iff]
    constructor
    · cases hp : pat.isPrefixOf (c :: (u' ++ v)) with
      | false => rfl
      | true =>
      exfalso
      have hpre : pat <+: (c :: u') ++ v := by
        rw [List.cons_append]
        exact isPrefixOf_true_iff.mp hp
      rcases le_or_lt pat.length (c :: u').length with hle | hlt
      · have : pat <+: c :: u' :=
          List.prefix_of_prefix_length_le hpre (List.prefix_append _ _) hle
        rw [contains_of_pre this] at hu
        cases hu
      · obtain ⟨ht, hd⟩ := prefix_junction hlt hpre
        refine hcross (c :: u').length (by simp) hlt ⟨?_, hd⟩
        rw [ht]

    · exact ih v h2 hv (fun k hk1 hk2 hko =>
        hcross k hk1 hk2 ⟨hko.1.trans (List.suffix_cons c u'), hko.2⟩)

theorem contains_anchor_digits_false (s : List Char)
    (hd : ∀ c ∈ s, c.isDigit = true) : containsSub anchor s = false := by
  by_contra hc
  have : containsSub anchor s = true := by
    revert hc
    cases containsSub anchor s <;> simp
  have hI : 'I' ∈ s := contains_mem this 'I' (by decide)
  have := hd 'I' hI
  simp at this

theorem anchor_drop_head :
    ∀ k, k < 6 → 0 < k → (anchor.drop k).head? ≠ some '5' ∧ anchor.drop k ≠ [] := by
  decide

theorem contains_anchor_x_priceTag (x : List Char) (price : Nat)
    (hx : containsSub anchor x = false) :
    containsSub anchor (x ++ priceTag price) = false := by
  refine containsSub_append_false anchor x (priceTag price) hx
    (contains_anchor_digits_false _ (priceTag_digits price)) ?_
  intro k hk1 hk2 hko
  rw [priceTag_shape] at hko
  have hk6 : k < 6 := by simpa [anchor] using hk2
  rcases prefix_head hko.2 with hnil | hhead
  · exact (anchor_drop_head k hk6 hk1).2 hnil
  · exact (anchor_drop_head k hk6 hk1).1 hhead

/-! ## match54 and replaceFirst lemmas for the amount field -/

theorem match54_skip (y : List Char) :
    ∀ x : List Char, containsSub ['5', '4'] x = false →
      match54 (x ++ '5' :: '4' :: y) = match54 ('5' :: '4' :: y) := by
  intro x
  induction x with
  | nil => intro _; rfl
  | cons c x' ih =>
    intro hx
    obtain ⟨h1, h2⟩ := contains_false_head hx
    cases x' with
    | nil =>
      show match54 (c :: '5' :: '4' :: y) = _
      rw [match54]
      have : ¬(c = '5' ∧ '5' = '4' ∧
          3 ≤ (('4' :: y).takeWhile Char.isDigit).length) := by
        rintro ⟨_, h, _⟩
        cases h
      rw [if_neg this]
    | cons c2 x2 =>
      show match54 (c :: c2 :: (x2 ++ '5' :: '4' :: y)) = _
      rw [match54]
      have hno : ¬(c = '5' ∧ c2 = '4' ∧
          3 ≤ ((x2 ++ '5' :: '4' :: y).takeWhile Char.isDigit).length) := by
        rintro ⟨rfl, rfl, _⟩
        simp [List.isPrefixOf] at h1
      rw [if_neg hno]
      exact ih h2

theorem match54_digits (pd : List Char) (hlen : 3 ≤ pd.length)
    (hd : ∀ c ∈ pd, c.isDigit = true) :
    match54 ('5' :: '4' :: pd) = some ('5' :: '4' :: pd) := by
  have htw : pd.takeWhile Char.isDigit = pd := List.takeWhile_eq_self_iff.mpr hd
  rw [match54, if_pos ⟨rfl, rfl, by rw [htw]; exact hlen⟩, htw]

theorem replaceFirst_at_54 (r y : List Char) :
    ∀ x : List Char, containsSub ['5', '4'] x = false →
      replaceFirst ('5' :: '4' :: y) r (x ++ '5' :: '4' :: y) = x ++ r := by
  intro x
  induction x with
  | nil =>
    intro _
    show replaceFirst ('5' :: '4' :: y) r ('5' :: '4' :: y) = r
    rw [replaceFirst]
    have hpre : ('5' :: '4' :: y).isPrefixOf ('5' :: '4' :: y) = true :=
      isPrefixOf_true_iff.mpr (List.prefix_refl _)
    rw [if_pos hpre]
    simp
  | cons c x' ih =>
    intro hx
    obtain ⟨h1, h2⟩ := contains_false_head hx
    show replaceFirst ('5' :: '4' :: y) r (c :: (x' ++ '5' :: '4' :: y)) = _
    rw [replaceFirst]
    have hno : ('5' :: '4' :: y).isPrefixOf (c :: (x' ++ '5' :: '4' :: y)) = false := by
      by_contra hc
      have hpre : ('5' :: '4' :: y) <+: c :: (x' ++ '5' :: '4' :: y) := by
        refine isPrefixOf_true_iff.mp ?_
        revert hc
        cases ('5' :: '4' :: y).isPrefixOf (c :: (x' ++ '5' :: '4' :: y)) <;> simp
      obtain ⟨w, hw⟩ := hpre
      rw [List.cons_append, List.cons.injEq] at hw
      obtain ⟨rfl, hw⟩ := hw
      cases x' with
      | nil =>
        rw [List.nil_append, List.cons_append, List.cons.injEq] at hw
        exact absurd hw.1 (by decide)
      | cons c2 x2 =>
        rw [List.cons_append, List.cons_append, List.cons.injEq] at hw
        obtain ⟨rfl, _⟩ := hw
        simp [List.isPrefixOf] at h1
    rw [if_neg (by simp [hno]), ih h2]
    rfl

/-! ## dropCrc on an appended 4-character checksum -/

theorem dropCrc_append (u c : List Char) (hc : c.length = 4) :
    dropCrc (u ++ c) = u := by
  unfold dropCrc
  rw [List.length_append, hc, Nat.add_sub_cancel]
  exact List.take_left' rfl

/-! ## Evaluation lemmas for the mutators

These unfold one successful (or failing) run of `setPrice`/`setTax` given
the values of the three scrutinees, without forcing the checksum. -/

theorem setPrice_eval (p : List Char) (price : Nat) (a b r : List Char)
    (h : splitParts2 anchor (replaceFirst tagStatic tagDynamic (dropCrc p)) = some (a, b))
    (hr : a ++ priceTag price ++ anchor ++ b = r) :
    setPrice p price = .ok (r ++ crcOf r) := by
  subst hr
  unfold setPrice
  rw [h]

theorem setTax_eval (p : List Char) (tax : TaxArg) (tag a b m r : List Char)
    (h1 : mkTaxTag tax = some tag)
    (h2 : splitParts2 anchor (replaceFirst tagStatic tagDynamic (dropCrc p)) = some (a, b))
    (h3 : match54 a = some m)
    (hr : replaceFirst m (m ++ tag) a ++ anchor ++ b = r) :
    setTax p tax = .ok (r ++ crcOf r) := by
  subst hr
  unfold setTax
  simp only [h1, h2, h3]

theorem setTax_missingAmount_eval (p : List Char) (tax : TaxArg) (tag a b : List Char)
    (h1 : mkTaxTag tax = some tag)
    (h2 : splitParts2 anchor (replaceFirst tagStatic tagDynamic (dropCrc p)) = some (a, b))
    (h3 : match54 a = none) :
    setTax p tax = .err .missingAmount := by
  unfold setTax
  simp only [h1, h2, h3]

/-! ## Concrete inputs used by the counterexample and bug theorems -/

/-- Payload for C2: a static payload (old checksum `"AAAA"`) chosen so
that the checksum recomputed by `setPrice` has value `0x0005 < 0x100`. -/
def c2Input : List Char := "0102115802ID000315AAAA".toList

/-- What `setPrice c2Input 10000` actually returns: the reassembled body
followed by the 1-character checksum rendering `"5"`. -/
def c2Result : List Char := "0102125405100005802ID0003155".toList

/-- Payload for C3: a well-formed static QRIS with a GoPay merchant
block, merchant name, region, and a trailing CRC field. -/
def c3Payload : List Char :=
  "00020101021126330015ID.CO.GOPAY.WWW011001234567895802ID5909MERCHANT96007JAKARTA6304AAAA".toList

/-- `setPrice c3Payload 10000`. -/
def c3Mid : List Char :=
  "00020101021226330015ID.CO.GOPAY.WWW011001234567895405100005802ID5909MERCHANT96007JAKARTA6304DFA7".toList

/-- `setTax c3Mid (nominal 2000)`. -/
def c3Final : List Char :=
  "00020101021226330015ID.CO.GOPAY.WWW01100123456789540510000550202560420005802ID5909MERCHANT96007JAKARTA630488FC".toList

/-- The fee tag emitted by `setTax` for a nominal fee of 2000. -/
def c4Tag : List Char := "55020256042000".toList

/-- Input for C6 whose CRC-16 register value is `0xF9 < 0x100`. -/
def c6Input : List Char := "0000120".toList

/-- Payload for C8 (any payload accepted by `setPrice` does). -/
def c8Input : List Char := "0102115802ID6304AAAA".toList

/-- `true` iff a mutator returned a payload rather than throwing. -/
def isOk : QRes → Bool
  | .ok _ => true
  | .err _ => false

/-- Payload for C9: the prefix before the anchor starts with the digit
run `"54999"` followed by the non-digit `"X"`, so the `/54\d{2}\d+/`
search of `setTax` matches the spurious run instead of the amount field
inserted by `setPrice`. -/
def c9Input : List Char := "54999X5802IDAAAA".toList

/-- `setPrice c9Input 10000`. -/
def c9Mid : List Char := "54999X5405100005802ID6945".toList

/-- `setTax c9Mid (nominal 2000)`: the fee fields land between the
spurious digit run and the amount field. -/
def c9Res : List Char := "5499955020256042000X5405100005802ID90F2".toList

/-! ## Chunked checksum evaluations for the concrete bodies

Each concrete checksum is evaluated in 14-character chunks via
`List.foldl_append`, keeping every single kernel evaluation shallow. -/

/-- Checksum-free body `c2Body` appearing in the concrete claim theorems. -/
def c2Body : List Char :=
  "0102125405100005802ID000315".toList

theorem crcVal_c2Body :
    computeCRC16Val (c2Body.map Char.toNat) = 5 := by
  have e : c2Body.map Char.toNat =
      "01021254051000".toList.map Char.toNat ++
      ("05802ID000315".toList.map Char.toNat) := by decide
  have h1 : List.foldl crcUpdate 65535 ("01021254051000".toList.map Char.toNat) = 16496 := by
    decide
  have h2 : List.foldl crcUpdate 16496 ("05802ID000315".toList.map Char.toNat) = 5 := by
    decide
  unfold computeCRC16Val
  rw [e, List.foldl_append, h1, h2]

theorem crcOf_c2Body : crcOf c2Body = ['5'] := by
  unfold crcOf computeCRC16
  rw [crcVal_c2Body]
  decide

/-- Checksum-free body `c2Pre` appearing in the concrete claim theorems. -/
def c2Pre : List Char :=
  "0102125405100005802ID000".toList

theorem crcVal_c2Pre :
    computeCRC16Val (c2Pre.map Char.toNat) = 47561 := by
  have e : c2Pre.map Char.toNat =
      "01021254051000".toList.map Char.toNat ++
      ("05802ID000".toList.map Char.toNat) := by decide
  have h1 : List.foldl crcUpdate 65535 ("01021254051000".toList.map Char.toNat) = 16496 := by
    decide
  have h2 : List.foldl crcUpdate 16496 ("05802ID000".toList.map Char.toNat) = 47561 := by
    decide
  unfold computeCRC16Val
  rw [e, List.foldl_append, h1, h2]

theorem crcOf_c2Pre : crcOf c2Pre = "B9C9".toList := by
  unfold crcOf computeCRC16
  rw [crcVal_c2Pre]
  decide

/-- Checksum-free body `c3MidBody` appearing in the concrete claim theorems. -/
def c3MidBody : List Char :=
  "00020101021226330015ID.CO.GOPAY.WWW011001234567895405100005802ID5909MERCHANT96007JAKARTA6304".toList

theorem crcVal_c3MidBody :
    computeCRC16Val (c3MidBody.map Char.toNat) = 57255 := by
  have e : c3MidBody.map Char.toNat =
      "00020101021226".toList.map Char.toNat ++
      ("330015ID.CO.GO".toList.map Char.toNat ++
      ("PAY.WWW0110012".toList.map Char.toNat ++
      ("34567895405100".toList.map Char.toNat ++
      ("005802ID5909ME".toList.map Char.toNat ++
      ("RCHANT96007JAK".toList.map Char.toNat ++
      ("ARTA6304".toList.map Char.toNat)))))) := by decide
  have h1 : List.foldl crcUpdate 65535 ("00020101021226".toList.map Char.toNat) = 31003 := by
    decide
  have h2 : List.foldl crcUpdate 31003 ("330015ID.CO.GO".toList.map Char.toNat) = 1188 := by
    decide
  have h3 : List.foldl crcUpdate 1188 ("PAY.WWW0110012".toList.map Char.toNat) = 36503 := by
    decide
  have h4 : List.foldl crcUpdate 36503 ("34567895405100".toList.map Char.toNat) = 18489 := by
    decide
  have h5 : List.foldl crcUpdate 18489 ("005802ID5909ME".toList.map Char.toNat) = 12147 := by
    decide
  have h6 : List.foldl crcUpdate 12147 ("RCHANT96007JAK".toList.map Char.toNat) = 835 := by
    decide
  have h7 : List.foldl crcUpdate 835 ("ARTA6304".toList.map Char.toNat) = 57255 := by
    decide
  unfold computeCRC16Val
  rw [e, List.foldl_append, h1, List.foldl_append, h2, List.foldl_append, h3, List.foldl_append, h4, List.foldl_append, h5, List.foldl_append, h6, h7]

theorem crcOf_c3MidBody : crcOf c3MidBody = "DFA7".toList := by
  unfold crcOf computeCRC16
  rw [crcVal_c3MidBody]
  decide

/-- Checksum-free body `c3FinalBody` appearing in the concrete claim theorems. -/
def c3FinalBody : List Char :=
  "00020101021226330015ID.CO.GOPAY.WWW01100123456789540510000550202560420005802ID5909MERCHANT96007JAKARTA6304".toList

theorem crcVal_c3FinalBody :
    computeCRC16Val (c3FinalBody.map Char.toNat) = 35068 := by
  have e : c3FinalBody.map Char.toNat =
      "00020101021226".toList.map Char.toNat ++
      ("330015ID.CO.GO".toList.map Char.toNat ++
      ("PAY.WWW0110012".toList.map Char.toNat ++
      ("34567895405100".toList.map Char.toNat ++
      ("00550202560420".toList.map Char.toNat ++
      ("005802ID5909ME".toList.map Char.toNat ++
      ("RCHANT96007JAK".toList.map Char.toNat ++
      ("ARTA6304".toList.map Char.toNat))))))) := by decide
  have h1 : List.foldl crcUpdate 65535 ("00020101021226".toList.map Char.toNat) = 31003 := by
    decide
  have h2 : List.foldl crcUpdate 31003 ("330015ID.CO.GO".toList.map Char.toNat) = 1188 := by
    decide
  have h3 : List.foldl crcUpdate 1188 ("PAY.WWW0110012".toList.map Char.toNat) = 36503 := by
    decide
  have h4 : List.foldl crcUpdate 36503 ("34567895405100".toList.map Char.toNat) = 18489 := by
    decide
  have h5 : List.foldl crcUpdate 18489 ("00550202560420".toList.map Char.toNat) = 55631 := by
    decide
  have h6 : List.foldl crcUpdate 55631 ("005802ID5909ME".toList.map Char.toNat) = 11260 := by
    decide
  have h7 : List.foldl crcUpdate 11260 ("RCHANT96007JAK".toList.map Char.toNat) = 35348 := by
    decide
  have h8 : List.foldl crcUpdate 35348 ("ARTA6304".toList.map Char.toNat) = 35068 := by
    decide
  unfold computeCRC16Val
  rw [e, List.foldl_append, h1, List.foldl_append, h2, List.foldl_append, h3, List.foldl_append, h4, List.foldl_append, h5, List.foldl_append, h6, List.foldl_append, h7, h8]

theorem crcOf_c3FinalBody : crcOf c3FinalBody = "88FC".toList := by
  unfold crcOf computeCRC16
  rw [crcVal_c3FinalBody]
  decide

/-- Checksum-free body `c9MidBody` appearing in the concrete claim theorems. -/
def c9MidBody : List Char :=
  "54999X5405100005802ID".toList

theorem crcVal_c9MidBody :
    computeCRC16Val (c9MidBody.map Char.toNat) = 26949 := by
  have e : c9MidBody.map Char.toNat =
      "54999X54051000".toList.map Char.toNat ++
      ("05802ID".toList.map Char.toNat) := by decide
  have h1 : List.foldl crcUpdate 65535 ("54999X54051000".toList.map Char.toNat) = 6437 := by
    decide
  have h2 : List.foldl crcUpdate 6437 ("05802ID".toList.map Char.toNat) = 26949 := by
    decide
  unfold computeCRC16Val
  rw [e, List.foldl_append, h1, h2]

theorem crcOf_c9MidBody : crcOf c9MidBody = "6945".toList := by
  unfold crcOf computeCRC16
  rw [crcVal_c9MidBody]
  decide

/-- Checksum-free body `c9ResBody` appearing in the concrete claim theorems. -/
def c9ResBody : List Char :=
  "5499955020256042000X5405100005802ID".toList

theorem crcVal_c9ResBody :
    computeCRC16Val (c9ResBody.map Char.toNat) = 37106 := by
  have e : c9ResBody.map Char.toNat =
      "54999550202560".toList.map Char.toNat ++
      ("42000X54051000".toList.map Char.toNat ++
      ("05802ID".toList.map Char.toNat)) := by decide
  have h1 : List.foldl crcUpdate 65535 ("54999550202560".toList.map Char.toNat) = 3176 := by
    decide
  have h2 : List.foldl crcUpdate 3176 ("42000X54051000".toList.map Char.toNat) = 27005 := by
    decide
  have h3 : List.foldl crcUpdate 27005 ("05802ID".toList.map Char.toNat) = 37106 := by
    decide
  unfold computeCRC16Val
  rw [e, List.foldl_append, h1, List.foldl_append, h2, h3]

theorem crcOf_c9ResBody : crcOf c9ResBody = "90F2".toList := by
  unfold crcOf computeCRC16
  rw [crcVal_c9ResBody]
  decide


/-! ## Parser-loop lemmas -/

/-- The length field read at cursor `j`: `parseInt` of `substring(j+2, j+4)`. -/
def lenAt (s : List Char) (j : Int) : Option Int :=
  parseInt10 (jsSubstring s (some (j + 2)) (some (j + 4)))

theorem parseStep_fst (s : List Char) (j : Int)
    (acc : List (List Char × List Char)) :
    (parseStep s (some j) acc).1 = jsAdd (some j) (jsAdd (some 4) (lenAt s j)) :=
  rfl

theorem parseStep_snd (s : List Char) (j : Int)
    (acc : List (List Char × List Char)) :
    (parseStep s (some j) acc).2 =
      recSet acc (jsSubstring s (some j) (some (j + 2)))
        (jsSubstring s (some (j + 4)) (jsAdd (some (j + 4)) (lenAt s j))) :=
  rfl

theorem parseLoop_guard_false (s : List Char) (fuel : Nat) (i : Option Int)
    (acc : List (List Char × List Char)) (h : jsLt i s.length = false) :
    parseLoop s fuel i acc = some acc := by
  unfold parseLoop
  simp [h]

theorem parseLoop_step (s : List Char) (f : Nat) (i : Option Int)
    (acc : List (List Char × List Char)) (h : jsLt i s.length = true) :
    parseLoop s (f + 1) i acc =
      parseLoop s f (parseStep s i acc).1 (parseStep s i acc).2 := by
  conv_lhs => rw [parseLoop]
  rw [if_pos h]

theorem jsLt_nat_true {s : List Char} {j : Nat} (h : j < s.length) :
    jsLt (some (j : Int)) s.length = true := by
  simp [jsLt]
  exact_mod_cast h

theorem jsLt_nat_false {s : List Char} {j : Nat} (h : s.length ≤ j) :
    jsLt (some (j : Int)) s.length = false := by
  simp [jsLt]
  exact_mod_cast h

theorem jsSubstring_int (s : List Char) (a b : Int) (hab : a ≤ b) :
    jsSubstring s (some a) (some b) = (s.take b.toNat).drop a.toNat := by
  simp only [jsSubstring, jsIdx]
  have h1 : a.toNat ≤ b.toNat := Int.toNat_le_toNat hab
  have hx : min a.toNat s.length ≤ min b.toNat s.length :=
    min_le_min h1 le_rfl
  rw [max_eq_right hx, min_eq_left hx]
  rcases le_total b.toNat s.length with hb | hb
  · rw [min_eq_left hb, min_eq_left (le_trans h1 hb)]
  · rw [min_eq_right hb]
    rcases le_total a.toNat s.length with ha2 | ha2
    · rw [min_eq_left ha2, List.take_length, List.take_of_length_le hb]
    · rw [min_eq_right ha2, List.take_length,
        List.drop_eq_nil_of_le le_rfl,
        List.drop_eq_nil_of_le
          (le_trans (by rw [List.length_take]; omega) ha2)]

theorem parseInt10_short (l : List Char) (h : l.length ≤ 1) :
    parseInt10 l = none ∨ ∃ d : Nat, parseInt10 l = some (d : Int) := by
  cases l with
  | nil => exact Or.inl rfl
  | cons c t =>
    cases t with
    | cons c2 t2 => simp at h
    | nil =>
      unfold parseInt10
      rw [List.dropWhile_cons]
      cases hw : c.isWhitespace with
      | true =>
        rw [if_pos rfl]
        exact Or.inl rfl
      | false =>
        rw [if_neg (by simp)]
        split
        · rename_i heq
          rw [List.cons.injEq] at heq
          obtain ⟨rfl, rfl⟩ := heq
          exact Or.inl rfl
        · rename_i heq
          rw [List.cons.injEq] at heq
          obtain ⟨rfl, rfl⟩ := heq
          exact Or.inl rfl
        · unfold digitsVal
          rw [List.takeWhile_cons]
          cases hd : c.isDigit with
          | false =>
            rw [if_neg (by simp)]
            exact Or.inl rfl
          | true =>
            rw [if_pos rfl]
            exact Or.inr ⟨_, rfl⟩

/-- The 2-character length slice read at the start of a string of fewer
than 4 characters has at most one character. -/
theorem lenAt_zero_short (s : List Char) (h : s.length < 4) :
    (jsSubstring s (some ((0 : Int) + 2)) (some ((0 : Int) + 4))).length ≤ 1 := by
  rw [jsSubstring_int s _ _ (by norm_num)]
  rw [List.length_drop, List.length_take]
  omega


/-! ## Parsing the fee tag emitted by setTax -/

theorem natDigits_le_two : ∀ L : Nat, L ≤ 99 → (natDigits L).length ≤ 2 := by
  decide

/-- A natural number below `10 ^ k` has at most `k` decimal digits. -/
theorem natDigitsFuel_len_le :
    ∀ k n f : Nat, n < f → n < 10 ^ k → 0 < k →
      (natDigitsFuel f n).length ≤ k := by
  intro k
  induction k with
  | zero => intro n f _ _ hk; omega
  | succ k ih =>
    intro n f hf hn _
    cases f with
    | zero => omega
    | succ f1 =>
      simp only [natDigitsFuel]
      split
      · simp
      · rename_i hge
        rw [List.length_append, List.length_singleton]
        have h10 : n / 10 < 10 ^ k := by
          have hnn : n < 10 ^ k * 10 := by
            calc n < 10 ^ (k + 1) := hn
            _ = 10 ^ k * 10 := pow_succ 10 k
          omega
        have hk0 : 0 < k := by
          by_contra hk0
          push_neg at hk0
          have hk00 : k = 0 := by omega
          subst hk00
          norm_num at hn
          exact hge hn
        have hlt : n / 10 < f1 := by omega
        have hlen := ih (n / 10) f1 hlt h10 hk0
        omega

/-- A safe-integer amount (below `2 ^ 53`) has at most 16 decimal
digits, comfortably within the 99 the two-digit length prefix covers. -/
theorem natDigits_le99_of_safe (n : Nat) (h : n < 2 ^ 53) :
    (natDigits n).length ≤ 99 := by
  have h16 : n < 10 ^ 16 := by
    have hlt : (2 : Nat) ^ 53 < 10 ^ 16 := by norm_num
    omega
  have hlen := natDigitsFuel_len_le 16 n (n + 1) (Nat.lt_succ_self n) h16 (by norm_num)
  unfold natDigits
  omega

theorem pad2_length_eq_two (L : Nat) (h : L ≤ 99) : (pad2 L).length = 2 := by
  unfold pad2
  rw [List.length_append, List.length_replicate]
  have h2 := natDigits_le_two L h
  have h1 := List.length_pos.mpr (natDigits_ne_nil L)
  omega

theorem parseInt10_pad2 : ∀ L : Nat, L ≤ 99 → parseInt10 (pad2 L) = some (L : Int) := by
  decide

theorem replaceFirst_percent : ∀ p : List Char, '%' ∉ p →
    replaceFirst ['%'] [] (p ++ ['%']) = p := by
  intro p
  induction p with
  | nil => intro _; rfl
  | cons c p' ih =>
    intro h
    have hc : c ≠ '%' := fun hh => h (by rw [hh]; exact List.mem_cons_self _ p')
    have hmem : '%' ∉ p' := fun hh => h (List.mem_cons_of_mem c hh)
    show replaceFirst ['%'] [] (c :: (p' ++ ['%'])) = c :: p'
    rw [replaceFirst]
    have hno : (['%'].isPrefixOf (c :: (p' ++ ['%']))) = false := by
      simp [List.isPrefixOf]
      exact fun hh => hc hh.symm
    rw [if_neg (by simp [hno]), ih hmem]

/-- Parsing the two-field shape `"55" "02" indicator tag2 len2 value2`
that `setTax` emits: the result is two flat TLV fields. -/
theorem parseEmv_taxTag (xc yc : Char) (ds : List Char)
    (hy : yc ≠ '5') (hds : ds.length ≤ 99) :
    parseEmv ('5' :: '5' :: '0' :: '2' :: '0' ::xc:: '5' ::yc::(pad2 ds.length ++ ds)) =
      some [(['5','5'], ['0', xc]), (['5', yc], ds)] := by
  have hplen : (pad2 ds.length).length = 2 := pad2_length_eq_two _ hds
  have hslen : ('5' :: '5' :: '0' :: '2' :: '0' ::xc:: '5' ::yc::(pad2 ds.length ++ ds)).length
      = 10 + ds.length := by
    simp [List.length_append, hplen]
    omega
  have hlen0 : lenAt ('5' :: '5' :: '0' :: '2' :: '0' ::xc:: '5' ::yc::(pad2 ds.length ++ ds)) 0
      = some 2 := by
    unfold lenAt
    rw [jsSubstring_int _ _ _ (by norm_num)]
    rfl
  have hlen6 : lenAt ('5' :: '5' :: '0' :: '2' :: '0' ::xc:: '5' ::yc::(pad2 ds.length ++ ds)) 6
      = some (ds.length : Int) := by
    unfold lenAt
    rw [jsSubstring_int _ _ _ (by norm_num)]
    show parseInt10 (List.drop 8 (List.take 10
      ('5' :: '5' :: '0' :: '2' :: '0' ::xc:: '5' ::yc::(pad2 ds.length ++ ds)))) = _
    rw [List.drop_take]
    show parseInt10 (List.take 2 (pad2 ds.length ++ ds)) = _
    rw [List.take_left' hplen]
    exact parseInt10_pad2 _ hds
  have htag1 : jsSubstring ('5' :: '5' :: '0' :: '2' :: '0' ::xc:: '5' ::yc::(pad2 ds.length ++ ds))
      (some (0 : Int)) (some ((0 : Int) + 2)) = ['5', '5'] := by
    rw [jsSubstring_int _ _ _ (by norm_num)]
    rfl
  have hval1 : jsSubstring ('5' :: '5' :: '0' :: '2' :: '0' ::xc:: '5' ::yc::(pad2 ds.length ++ ds))
      (some ((0 : Int) + 4)) (jsAdd (some ((0 : Int) + 4)) (some (2 : Int))) = ['0', xc] := by
    show jsSubstring _ (some ((0 : Int) + 4)) (some ((0 : Int) + 4 + 2)) = _
    rw [jsSubstring_int _ _ _ (by norm_num)]
    rfl
  have htag2 : jsSubstring ('5' :: '5' :: '0' :: '2' :: '0' ::xc:: '5' ::yc::(pad2 ds.length ++ ds))
      (some (6 : Int)) (some ((6 : Int) + 2)) = ['5', yc] := by
    rw [jsSubstring_int _ _ _ (by norm_num)]
    rfl
  have hval2 : jsSubstring ('5' :: '5' :: '0' :: '2' :: '0' ::xc:: '5' ::yc::(pad2 ds.length ++ ds))
      (some ((6 : Int) + 4)) (jsAdd (some ((6 : Int) + 4)) (some (ds.length : Int))) = ds := by
    show jsSubstring _ (some ((6 : Int) + 4)) (some ((6 : Int) + 4 + (ds.length : Int))) = _
    rw [jsSubstring_int _ _ _ (by push_cast; omega)]
    have h1 : ((6 : Int) + 4 + (ds.length : Int)).toNat = 10 + ds.length := by omega
    rw [h1, show ((6 : Int) + 4).toNat = 10 from rfl, ← hslen, List.take_length]
    show (pad2 ds.length ++ ds).drop 2 = ds
    rw [List.drop_left' hplen]
  have hg0 : jsLt (some (0 : Int))
      ('5' :: '5' :: '0' :: '2' :: '0' ::xc:: '5' ::yc::(pad2 ds.length ++ ds)).length = true := by
    simp [jsLt, hslen]
    positivity
  have hg6 : jsLt (some (6 : Int))
      ('5' :: '5' :: '0' :: '2' :: '0' ::xc:: '5' ::yc::(pad2 ds.length ++ ds)).length = true := by
    simp [jsLt, hslen]
    omega
  have hg2 : jsLt (some ((6 : Int) + (4 + (ds.length : Int))))
      ('5' :: '5' :: '0' :: '2' :: '0' ::xc:: '5' ::yc::(pad2 ds.length ++ ds)).length = false := by
    simp [jsLt, hslen]
    omega
  unfold parseEmv
  rw [hslen, parseLoop_step _ _ _ _ hg0, parseStep_fst, parseStep_snd, hlen0,
    htag1, hval1]
  rw [show jsAdd (some (0 : Int)) (jsAdd (some 4) (some 2)) = some (6 : Int) from rfl]
  rw [show (10 : Nat) + ds.length = 9 + ds.length + 1 from by omega]
  rw [parseLoop_step _ _ _ _ hg6, parseStep_fst, parseStep_snd, hlen6, htag2, hval2]
  rw [show jsAdd (some (6 : Int)) (jsAdd (some 4) (some (ds.length : Int)))
    = some ((6 : Int) + (4 + (ds.length : Int))) from rfl]
  rw [parseLoop_guard_false _ _ _ _ hg2]
  show some (recSet [(['5','5'], ['0', xc])] ['5', yc] ds) = _
  unfold recSet
  rw [if_neg (by simp [List.cons.injEq]; intro h; exact hy h.symm)]
  rfl

/-! ## Length of the digit string of a large number -/

theorem natDigitsFuel_len3 :
    ∀ f n : Nat, 100 ≤ n → n < f → 3 ≤ (natDigitsFuel f n).length := by
  intro f n h100 hf
  cases f with
  | zero => omega
  | succ f1 =>
    simp only [natDigitsFuel]
    rw [if_neg (by omega), List.length_append]
    cases f1 with
    | zero => omega
    | succ f2 =>
      have hd1 : 10 ≤ n / 10 := by
        calc 10 = 100 / 10 := by norm_num
        _ ≤ n / 10 := Nat.div_le_div_right h100
      simp only [natDigitsFuel]
      rw [if_neg (by omega), List.length_append]
      have hne : natDigitsFuel f2 (n / 10 / 10) ≠ [] :=
        natDigitsFuel_ne_nil f2 _ (by omega)
      have := List.length_pos.mpr hne
      simp
      omega

theorem natDigits_length_ge3 (n : Nat) (h : 100 ≤ n) :
    3 ≤ (natDigits n).length :=
  natDigitsFuel_len3 (n + 1) n h (by omega)

/-! ## Claim theorems -/

/-- Claim C1: `computeCRC16` implements CRC-16/CCITT-FALSE (initial
register `0xFFFF`, polynomial `0x1021`, no reflection, no final XOR) over
the char codes of its input — for byte-range char codes its register
agrees with the spec-side CRC-16/CCITT-FALSE register — and on the ASCII
test vector `"123456789"` it returns `"29B1"`. -/
theorem c1_crc16_ccitt_false :
    (∀ codes : List Nat, (∀ c ∈ codes, c < 256) →
      computeCRC16Val codes = crcSpecVal codes) ∧
    crcOf "123456789".toList = "29B1".toList := by
  constructor
  · intro codes h
    exact crcFold_eq_spec codes 0xFFFF (by norm_num) h
  · decide

/-- Witness for C1: the refinement conjunct applied at the concrete
char-code list of `"12"`. -/
theorem c1_crc16_ccitt_false_witness :
    computeCRC16Val [49, 50] = crcSpecVal [49, 50] :=
  c1_crc16_ccitt_false.1 [49, 50] (by decide)

/-- Claim C2 (bug): on `c2Input` — a static payload whose body contains
`"010211"` and exactly one `"5802ID"` — `setPrice` returns a payload
whose recomputed checksum renders to the single character `"5"` (value
`0x0005`, and the padding in `computeCRC16` only fixes 3-character
renderings), so the trailing 4 characters of the result do not equal
`computeCRC16` of everything preceding them, contrary to the claim. -/
theorem c2_setPrice_short_crc_bug :
    setPrice c2Input 10000 = .ok c2Result ∧
    (crcOf (c2Result.take (c2Result.length - 4))).length = 4 ∧
    c2Result.drop (c2Result.length - 4) ≠
      crcOf (c2Result.take (c2Result.length - 4)) ∧
    crcOf c2Body = ['5'] := by
  have hpre : c2Result.take (c2Result.length - 4) = c2Pre := by decide
  refine ⟨?_, ?_, ?_, crcOf_c2Body⟩
  · have h := setPrice_eval c2Input 10000 "010212".toList "000315".toList
      c2Body (by decide) (by decide)
    rw [crcOf_c2Body] at h
    rw [h]
    decide
  · rw [hpre, crcOf_c2Pre]
    decide
  · rw [hpre, crcOf_c2Pre]
    decide

/-- Claim C3 (bug): after `setPrice _ 10000` then `setTax _ (nominal
2000)` on the well-formed payload `c3Payload`, re-extraction returns the
price that was set (`"10000"`) but a tax of `"02"` — the tip-indicator
value of tag `55` — not the fee value `"2000"` that was set, which lives
in tag `56`, never read by `extractMetadata`. -/
theorem c3_roundtrip_tax_bug :
    setPrice c3Payload 10000 = .ok c3Mid ∧
    setTax c3Mid (.num 2000) = .ok c3Final ∧
    extractMetadata c3Final =
      some
        { merchant := "MERCHANT9".toList
          company := "ID.CO.GOPAY.WWW".toList
          region := "JAKARTA".toList
          country := "ID".toList
          postal_code := []
          merchant_pan := "0123456789".toList
          price := some "10000".toList
          tax := some "02".toList } ∧
    (extractMetadata c3Final).map (fun m => m.tax) ≠
      some (some "2000".toList) := by
  refine ⟨?_, ?_, by decide, by decide⟩
  · have h := setPrice_eval c3Payload 10000
      "00020101021226330015ID.CO.GOPAY.WWW01100123456789".toList
      "5909MERCHANT96007JAKARTA6304".toList
      c3MidBody (by decide) (by decide)
    rw [crcOf_c3MidBody] at h
    rw [h]
    decide
  · have h := setTax_eval c3Mid (.num 2000) c4Tag
      "00020101021226330015ID.CO.GOPAY.WWW01100123456789540510000".toList
      "5909MERCHANT96007JAKARTA6304".toList
      "540510000".toList
      c3FinalBody (by decide) (by decide) (by decide) (by decide)
    rw [crcOf_c3FinalBody] at h
    rw [h]
    decide

/-- Claim C4 counterexample: for the nominal fee 2000, the emitted tag
string parses as two flat TLV fields — tag `55` with the 2-character
value `"02"` and tag `56` with value `"2000"` — so tag `55` does not
contain the length-prefixed fee digit string, and under the claimed
nested reading the declared length `02` of tag `55` would not match the
remaining 10 characters. -/
theorem c4_tax_fields_flat_counterexample :
    mkTaxTag (.num 2000) = some c4Tag ∧
    parseEmv c4Tag =
      some [(['5', '5'], ['0', '2']), (['5', '6'], "2000".toList)] ∧
    containsSub "2000".toList ['0', '2'] = false ∧
    c4Tag.length = 14 := by
  refine ⟨by decide, by decide, by decide, by decide⟩

/-- Claim C5 counterexample: on the malformed input `"00"` (fewer than 4
characters), `parseEmv` does not fail at all — it returns the mapping
`{"00" ↦ "00"}` (the value slice `substring(4, NaN)` swaps and clamps to
the whole string). -/
theorem c5_parser_no_error_counterexample :
    parseEmv "00".toList = some [(['0', '0'], ['0', '0'])] := by
  decide

/-- Claim C6 (bug): on the input `"0000120"` the CRC register value is
`0xF9 < 0x100`, and `computeCRC16` renders it as the 2-character string
`"F9"` — the padding step only left-pads 3-character renderings — so the
result is not a 4-character string. -/
theorem c6_short_hex_bug :
    crcOf c6Input = ['F', '9'] ∧ (crcOf c6Input).length ≠ 4 ∧
    computeCRC16Val (c6Input.map Char.toNat) = 0xF9 := by
  refine ⟨by decide, by decide, by decide⟩

/-- Claim C8 counterexample: `setPrice` performs no digit-count or
magnitude check of any kind — the amount never reaches a branch — so at
an amount whose mathematical value has 100 decimal digits (in
JavaScript the double written `1e99`, which the code embeds rendered as
`"1e+99"`) it returns a payload instead of failing with
`FieldTooLarge`; no such error exists anywhere in the code.  The second
conjunct states the digit count of the amount; the success conjunct is
independent of how the number is rendered into the inserted text. -/
theorem c8_no_fieldTooLarge_counterexample :
    isOk (setPrice c8Input (10 ^ 99)) = true ∧
    100 ≤ (natDigits (10 ^ 99)).length := by
  refine ⟨by decide, by decide⟩

/-- Claim C9 counterexample: on `c9Input`, whose prefix holds the
spurious digit run `"54999"`, `setPrice _ 10000` then
`setTax _ (nominal 2000)` succeed, but in the result the fee fields
(starting `"5502…"`, at index 5) appear strictly before the amount field
`"540510000"` (first occurrence at index 20), violating the claimed
54-before-55 ordering. -/
theorem c9_ordering_counterexample :
    setPrice c9Input 10000 = .ok c9Mid ∧
    setTax c9Mid (.num 2000) = .ok c9Res ∧
    firstOcc "55020256042000".toList c9Res = some 5 ∧
    firstOcc "540510000".toList c9Res = some 20 := by
  refine ⟨?_, ?_, by decide, by decide⟩
  · have h := setPrice_eval c9Input 10000 "54999X".toList ([] : List Char)
      c9MidBody (by decide) (by decide)
    rw [crcOf_c9MidBody] at h
    rw [h]
    decide
  · have h := setTax_eval c9Mid (.num 2000) c4Tag
      "54999X540510000".toList ([] : List Char) "54999".toList
      c9ResBody (by decide) (by decide) (by decide) (by decide)
    rw [crcOf_c9ResBody] at h
    rw [h]
    decide

/-- Claim C10 counterexample: on input `"00-4"` the length field parses
to `-4`, the cursor advances by `4 + (-4) = 0`, and the loop state is a
fixpoint with the guard still true — `parseEmv` runs forever (the
fuel-indexed model returns `none`) instead of always returning a
mapping. -/
theorem c10_nontermination_counterexample :
    parseEmv "00-4".toList = none ∧
    parseStep "00-4".toList (some 0) [(['0', '0'], "00-4".toList)] =
      (some 0, [(['0', '0'], "00-4".toList)]) ∧
    jsLt (some 0) "00-4".toList.length = true := by
  refine ⟨by decide, by decide, by decide⟩

/-- Claim C5 (amended): the parser raises no structural error.  On every
input that is malformed at the start — (a) fewer than 4 characters in
total, (b) a length slice that does not parse as a number, or (c) a
parsed non-negative length exceeding the remaining characters — the loop
records one (truncated) field and exits, returning that singleton
mapping rather than failing. -/
theorem c5_parser_returns_mapping_on_malformed (s : List Char) (h0 : s ≠ [])
    (hmal : s.length < 4 ∨ lenAt s 0 = none ∨
      ∃ n : Nat, lenAt s 0 = some (n : Int) ∧ (s.length : Int) < 4 + n) :
    parseEmv s =
      some [(jsSubstring s (some 0) (some ((0 : Int) + 2)),
        jsSubstring s (some ((0 : Int) + 4))
          (jsAdd (some ((0 : Int) + 4)) (lenAt s 0)))] := by
  have hg0 : jsLt (some (0 : Int)) s.length = true := by
    have := List.length_pos.mpr h0
    exact jsLt_nat_true (j := 0) this
  unfold parseEmv
  rw [parseLoop_step _ _ _ _ hg0, parseStep_fst, parseStep_snd]
  have hdone : ∀ i' : Option Int, jsLt i' s.length = false →
      i' = jsAdd (some (0 : Int)) (jsAdd (some 4) (lenAt s 0)) →
      parseLoop s s.length (jsAdd (some (0 : Int)) (jsAdd (some 4) (lenAt s 0)))
        (recSet [] (jsSubstring s (some (0 : Int)) (some ((0 : Int) + 2)))
          (jsSubstring s (some ((0 : Int) + 4))
            (jsAdd (some ((0 : Int) + 4)) (lenAt s 0)))) =
      some [(jsSubstring s (some 0) (some ((0 : Int) + 2)),
        jsSubstring s (some ((0 : Int) + 4))
          (jsAdd (some ((0 : Int) + 4)) (lenAt s 0)))] := by
    intro i' hi hieq
    rw [← hieq, parseLoop_guard_false _ _ _ _ hi]
    rfl
  rcases hmal with hshort | hnone | ⟨n, hn, hlen⟩
  · rcases parseInt10_short _ (lenAt_zero_short s hshort) with hl | ⟨d, hl⟩
    · have hl' : lenAt s 0 = none := hl
      refine hdone none ?_ ?_
      · rfl
      · rw [hl']
        rfl
    · have hl' : lenAt s 0 = some (d : Int) := hl
      refine hdone (some ((0 : Int) + (4 + (d : Int)))) ?_ ?_
      · have : ((0 : Int) + (4 + (d : Int))) = ((4 + d : Nat) : Int) := by
          push_cast
          ring
        rw [this]
        exact jsLt_nat_false (by omega)
      · rw [hl']
        rfl
  · refine hdone none rfl ?_
    rw [hnone]
    rfl
  · refine hdone (some ((0 : Int) + (4 + (n : Int)))) ?_ ?_
    · have : ((0 : Int) + (4 + (n : Int))) = ((4 + n : Nat) : Int) := by
        push_cast
        ring
      rw [this]
      refine jsLt_nat_false ?_
      have : (s.length : Int) < ((4 + n : Nat) : Int) := by
        push_cast
        omega
      exact_mod_cast this.le.trans (le_refl _)
    · rw [hn]
      rfl

/-- Witness for C5 (amended): the 6-character input `"ABCDEF"`, whose
length slice `"CD"` does not parse. -/
theorem c5_parser_returns_mapping_on_malformed_witness :
    parseEmv "ABCDEF".toList =
      some [(jsSubstring "ABCDEF".toList (some 0) (some ((0 : Int) + 2)),
        jsSubstring "ABCDEF".toList (some ((0 : Int) + 4))
          (jsAdd (some ((0 : Int) + 4)) (lenAt "ABCDEF".toList 0)))] :=
  c5_parser_returns_mapping_on_malformed "ABCDEF".toList (by decide)
    (Or.inr (Or.inl (by decide)))

/-- Decidable form of "the length slice at cursor `j` is NaN or
non-negative". -/
def lenOkB (s : List Char) (j : Nat) : Bool :=
  match lenAt s (j : Int) with
  | none => true
  | some n => decide (0 ≤ n)

/-- Claim C10 (amended): `parseEmv` never throws, and when the length
slice at every position is either unparseable (NaN, which ends the loop
one iteration later) or non-negative (which advances the cursor by
`4 + length ≥ 4`), the loop terminates with a mapping.  Without the
non-negativity restriction the claim is false: a length parsing to `-4`
freezes the cursor (see the counterexample). -/
theorem c10_parser_terminates_on_nonneg_lengths (s : List Char)
    (h : ∀ j : Nat, j < s.length → lenOkB s j = true) :
    (parseEmv s).isSome = true := by
  suffices H : ∀ (fuel j : Nat) (acc : List (List Char × List Char)),
      s.length ≤ fuel + j → (parseLoop s fuel (some (j : Int)) acc).isSome = true by
    exact H (s.length + 1) 0 [] (by omega)
  intro fuel
  induction fuel with
  | zero =>
    intro j acc hle
    rw [parseLoop_guard_false _ _ _ _ (jsLt_nat_false (by omega))]
    rfl
  | succ f ih =>
    intro j acc hle
    rcases Nat.lt_or_ge j s.length with hj | hj
    case _ =>
      rw [parseLoop_step _ _ _ _ (jsLt_nat_true hj), parseStep_fst]
      cases hl : lenAt s (j : Int) with
      | none =>
        rw [parseLoop_guard_false s f
          (jsAdd (some (j : Int)) (jsAdd (some 4) none))
          (parseStep s (some (j : Int)) acc).2 rfl]
        rfl
      | some n =>
        have hok := h j hj
        rw [lenOkB, hl] at hok
        have hn : 0 ≤ n := of_decide_eq_true hok
        have hcast : jsAdd (some (j : Int)) (jsAdd (some 4) (some n)) =
            some ((j + 4 + n.toNat : Nat) : Int) := by
          show some ((j : Int) + (4 + n)) = _
          rw [Option.some.injEq]
          push_cast [Int.toNat_of_nonneg hn]
          ring
        rw [hcast]
        exact ih (j + 4 + n.toNat) _ (by omega)
    case _ =>
      rw [parseLoop_guard_false _ _ _ _ (jsLt_nat_false hj)]
      rfl

/-- Witness for C10 (amended): the well-formed input `"000201"`, whose
length slices are all numeric and non-negative or empty. -/
theorem c10_parser_terminates_on_nonneg_lengths_witness :
    (parseEmv "000201".toList).isSome = true :=
  c10_parser_terminates_on_nonneg_lengths "000201".toList (by decide)

/-- Claim C7: on a payload whose checksum-stripped,
indicator-flipped body decomposes as `x ++ anchor ++ y` with the
country-code anchor occurring exactly once (not in `x`, not in `y`) and
with no `/54\d{2}\d+/` match in the prefix `x`, `setTax` with any
well-formed fee fails with the missing-amount error — it never returns a
payload.  (The indicator flip rewrites one digit `1` to `2` and can
affect neither anchor occurrences nor amount-field matches, so the
hypotheses are equivalent to the same conditions on the raw body.) -/
theorem c7_setTax_requires_amount (p : List Char) (tax : TaxArg)
    (tag x y : List Char)
    (htag : mkTaxTag tax = some tag)
    (hbody : replaceFirst tagStatic tagDynamic (dropCrc p) = x ++ anchor ++ y)
    (hx : containsSub anchor x = false)
    (hy : containsSub anchor y = false)
    (h54 : match54 x = none) :
    setTax p tax = .err .missingAmount := by
  refine setTax_missingAmount_eval p tax tag x y htag ?_ h54
  rw [hbody]
  exact splitParts2_junction anchor x y (by decide) hx (noOverlapIn_anchor x) hy

/-- Witness for C7: the static payload `"0102115802ID63040000"`, which has
no amount field, with the nominal fee 2000. -/
theorem c7_setTax_requires_amount_witness :
    setTax "0102115802ID63040000".toList (.num 2000) = .err .missingAmount :=
  c7_setTax_requires_amount "0102115802ID63040000".toList (.num 2000) c4Tag
    "010212".toList "6304".toList (by decide) (by decide) (by decide)
    (by decide) (by decide)

/-- Claim C8 (amended): `setPrice` has no `FieldTooLarge` error and no
error path that depends on the amount.  On a payload whose flipped body
decomposes around a unique anchor, `setPrice` returns a payload for
every amount whatsoever — in particular for one whose decimal digit
count is 100 or more — since the amount only flows into the inserted
text, never into a branch.  (Because no branch inspects the amount, the
returned-a-payload conclusion is faithful for every amount, independent
of how JavaScript renders it: above `2 ^ 53` the rendered digits differ
from the exact decimal expansion, `String(1e99)` being `"1e+99"`, but
success does not.) -/
theorem c8_setPrice_never_rejects (p x y : List Char) (price : Nat)
    (hbody : replaceFirst tagStatic tagDynamic (dropCrc p) = x ++ anchor ++ y)
    (hx : containsSub anchor x = false)
    (hy : containsSub anchor y = false) :
    isOk (setPrice p price) = true := by
  have hsplit : splitParts2 anchor
      (replaceFirst tagStatic tagDynamic (dropCrc p)) = some (x, y) := by
    rw [hbody]
    exact splitParts2_junction anchor x y (by decide) hx (noOverlapIn_anchor x) hy
  rw [setPrice_eval p price x y _ hsplit rfl]
  rfl

/-- Witness for C8 (amended): the payload `c8Input` with the amount
`10 ^ 99`, whose decimal digit count is 100. -/
theorem c8_setPrice_never_rejects_witness :
    isOk (setPrice c8Input (10 ^ 99)) = true :=
  c8_setPrice_never_rejects c8Input "010212".toList "6304".toList
    (10 ^ 99) (by decide) (by decide) (by decide)

/-- Claim C9 (amended): the 54-before-55-before-58 ordering holds
provided the prefix before the anchor contains no spurious `"54"` run
(otherwise the `/54\d{2}\d+/` search inserts the fee before the amount
field, see the counterexample), the bodies contain no stray `"010211"`
run, and the intermediate checksum renders to 4 characters: after
`setPrice` then `setTax` the result is literally
`prefix ++ amountField ++ feeFields ++ anchor ++ suffix ++ checksum`,
so the amount field appears strictly before the fee fields, which appear
strictly before the country-code anchor.  The remaining hypotheses keep
the statement on the domain where the embedding is exact: the amount and
any nominal fee are safe integers (below `2 ^ 53`, where `String`
renders the exact decimal digits rather than rounded or scientific
notation), and the fee tag contains no dollar sign (JavaScript expands
dollar substitution patterns in the replacement `match[0] + tag`; a
dollar-free tag is inserted literally). -/
theorem c9_ordering_with_clean_body
    (x y c : List Char) (price : Nat) (tax : TaxArg) (tag : List Char)
    (hc : c.length = 4)
    (hprice : price < 2 ^ 53)
    (hsafe : taxSafe tax = true)
    (hAx : containsSub anchor x = false)
    (hAy : containsSub anchor y = false)
    (h54x : containsSub ['5', '4'] x = false)
    (hN1 : containsSub tagStatic (x ++ anchor ++ y) = false)
    (hN2 : containsSub tagStatic (x ++ priceTag price ++ anchor ++ y) = false)
    (htag : mkTaxTag tax = some tag)
    (hdollar : '$' ∉ tag)
    (hcrc : (crcOf (x ++ priceTag price ++ anchor ++ y)).length = 4) :
    setPrice (x ++ anchor ++ y ++ c) price =
      .ok ((x ++ priceTag price ++ anchor ++ y) ++
        crcOf (x ++ priceTag price ++ anchor ++ y)) ∧
    setTax ((x ++ priceTag price ++ anchor ++ y) ++
        crcOf (x ++ priceTag price ++ anchor ++ y)) tax =
      .ok ((x ++ priceTag price ++ tag ++ anchor ++ y) ++
        crcOf (x ++ priceTag price ++ tag ++ anchor ++ y)) := by
  have hsplit1 : splitParts2 anchor
      (replaceFirst tagStatic tagDynamic (dropCrc (x ++ anchor ++ y ++ c))) =
      some (x, y) := by
    rw [dropCrc_append _ c hc, replaceFirst_id _ _ _ hN1]
    exact splitParts2_junction anchor x y (by decide) hAx (noOverlapIn_anchor x) hAy
  refine ⟨setPrice_eval _ price x y _ hsplit1 rfl, ?_⟩
  have hdrop2 : dropCrc ((x ++ priceTag price ++ anchor ++ y) ++
      crcOf (x ++ priceTag price ++ anchor ++ y)) =
      x ++ priceTag price ++ anchor ++ y :=
    dropCrc_append _ _ hcrc
  have hsplit2 : splitParts2 anchor (x ++ priceTag price ++ anchor ++ y) =
      some (x ++ priceTag price, y) :=
    splitParts2_junction anchor (x ++ priceTag price) y (by decide)
      (contains_anchor_x_priceTag x price hAx) (noOverlapIn_anchor _) hAy
  have hmatch : match54 (x ++ priceTag price) = some (priceTag price) := by
    rw [priceTag_shape, match54_skip _ x h54x]
    exact match54_digits _ (priceTag_pd_length price) (priceTag_pd_digits price)
  refine setTax_eval _ tax tag (x ++ priceTag price) y (priceTag price) _
    htag ?_ hmatch ?_
  · rw [hdrop2, replaceFirst_id _ _ _ hN2]
    exact hsplit2
  · rw [priceTag_shape, replaceFirst_at_54 _ _ x h54x, ← priceTag_shape]
    simp [List.append_assoc]

/-- Witness for C9 (amended): empty prefix, suffix `"6304"`, old checksum
`"AAAA"`, amount 10000 and nominal fee 2000 (both safe integers; the fee
tag has no dollar sign). -/
theorem c9_ordering_with_clean_body_witness :
    setPrice (([] : List Char) ++ anchor ++ "6304".toList ++ "AAAA".toList) 10000 =
      .ok ((([] : List Char) ++ priceTag 10000 ++ anchor ++ "6304".toList) ++
        crcOf (([] : List Char) ++ priceTag 10000 ++ anchor ++ "6304".toList)) ∧
    setTax ((([] : List Char) ++ priceTag 10000 ++ anchor ++ "6304".toList) ++
        crcOf (([] : List Char) ++ priceTag 10000 ++ anchor ++ "6304".toList))
      (.num 2000) =
      .ok ((([] : List Char) ++ priceTag 10000 ++ c4Tag ++ anchor ++ "6304".toList) ++
        crcOf (([] : List Char) ++ priceTag 10000 ++ c4Tag ++ anchor ++ "6304".toList)) :=
  c9_ordering_with_clean_body [] "6304".toList "AAAA".toList 10000
    (.num 2000) c4Tag (by decide) (by decide) (by decide) (by decide)
    (by decide) (by decide) (by decide) (by decide) (by decide)
    (by decide) (by decide)

/-- Claim C4 (amended): `setTax` encodes the fee as a flat sequence of
two TLV fields, not as a nested sub-structure under tag `55`: tag `55`
with declared length `02` and value `"02"` (nominal) or `"03"`
(percentage) — the tip indicator — immediately followed by a separate
field with tag `56` (nominal) or `57` (percentage) whose 2-digit
declared length equals the fee digit string length and whose value is
the fee digit string.  Parsing the emitted tag string returns exactly
these two fields, so each declared length equals the byte length of
the corresponding value.  The nominal branch is stated for safe-integer
fees (below `2 ^ 53`), where `String(tax)` is the exact decimal digit
string `natDigits` models; larger doubles render rounded or, from
`1e21` on, in scientific notation. -/
theorem c4_tax_encoding_flat :
    (∀ n : Nat, n < 2 ^ 53 →
      mkTaxTag (.num n) =
        some ('5' :: '5' :: '0' :: '2' :: '0' :: '2' :: '5' :: '6' ::
          (pad2 (natDigits n).length ++ natDigits n)) ∧
      parseEmv ('5' :: '5' :: '0' :: '2' :: '0' :: '2' :: '5' :: '6' ::
          (pad2 (natDigits n).length ++ natDigits n)) =
        some [(['5','5'], ['0','2']), (['5','6'], natDigits n)]) ∧
    (∀ p : List Char, '%' ∉ p → p.length ≤ 99 →
      mkTaxTag (.str (p ++ ['%'])) =
        some ('5' :: '5' :: '0' :: '2' :: '0' :: '3' :: '5' :: '7' ::(pad2 p.length ++ p)) ∧
      parseEmv ('5' :: '5' :: '0' :: '2' :: '0' :: '3' :: '5' :: '7' ::(pad2 p.length ++ p)) =
        some [(['5','5'], ['0','3']), (['5','7'], p)]) := by
  constructor
  · intro n hn
    exact ⟨rfl, parseEmv_taxTag '2' '6' (natDigits n) (by decide)
      (natDigits_le99_of_safe n hn)⟩
  · intro p hp hl
    constructor
    · show (if (p ++ ['%']).getLast? = some '%' then _ else _) = _
      rw [List.getLast?_concat, if_pos rfl, replaceFirst_percent p hp]
      simp [List.append_assoc]
    · exact parseEmv_taxTag '3' '7' p (by decide) hl

/-- Witness for C4 (amended): the nominal fee 2000 and the percentage
string `"10%"`. -/
theorem c4_tax_encoding_flat_witness :
    (mkTaxTag (.num 2000) =
        some ('5' :: '5' :: '0' :: '2' :: '0' :: '2' :: '5' :: '6' ::
          (pad2 (natDigits 2000).length ++ natDigits 2000)) ∧
      parseEmv ('5' :: '5' :: '0' :: '2' :: '0' :: '2' :: '5' :: '6' ::
          (pad2 (natDigits 2000).length ++ natDigits 2000)) =
        some [(['5','5'], ['0','2']), (['5','6'], natDigits 2000)]) ∧
    (mkTaxTag (.str (['1','0'] ++ ['%'])) =
        some ('5' :: '5' :: '0' :: '2' :: '0' :: '3' :: '5' :: '7' ::
          (pad2 (['1','0'] : List Char).length ++ ['1','0'])) ∧
      parseEmv ('5' :: '5' :: '0' :: '2' :: '0' :: '3' :: '5' :: '7' ::
          (pad2 (['1','0'] : List Char).length ++ ['1','0'])) =
        some [(['5','5'], ['0','3']), (['5','7'], ['1','0'])]) :=
  ⟨c4_tax_encoding_flat.1 2000 (by decide),
   c4_tax_encoding_flat.2 ['1','0'] (by decide) (by decide)⟩

end Qris
